import Mathlib

/-!
Verification development for the support-template repository.

The program under study is a browser extension whose core consists of
(a) a placeholder engine (`src/utils/templateProcessor.ts`): extraction,
substitution and validation of `\x7b\x7bname\x7d\x7d` placeholders driven by the
JavaScript regex scan of the global pattern two-open-braces,
one-or-more-non-close-brace-characters, two-close-braces; and
(b) a persistence adapter (`src/utils/storage.ts`): loading and saving two
record collections through an asynchronous key-value store and the
export/import of a versioned JSON bundle.

Shallow-embedding conventions used throughout this file:
- JavaScript strings are Lean `String`s, handled as their `List Char` data
  where the scan needs character access.  All scanners take an explicit
  fuel argument so that they are structurally recursive and evaluate
  inside the kernel; fuel equal to the length of the scanned list is
  always sufficient because every step consumes at least one character.
- JavaScript `Date` values are modelled by `JsDate`: either a valid
  instant (an integer count of milliseconds) or the Invalid Date value.
  The ISO-8601 serialization of a valid date is modelled by an injective
  decimal rendering of the instant; what the proofs rely on is exactly
  the property the real pair has: serializing a valid date and parsing
  it back yields the same instant, while garbage strings parse to the
  Invalid Date.
- JSON values (the results of `JSON.parse`, and the values handed to the
  chrome storage API, which serializes like `JSON.stringify`) are the
  inductive `Json`.  An import input is either a well-formed JSON value
  or the marker `malformed` standing for text rejected by `JSON.parse`.
- Exceptions are `Except`/explicit result constructors; `try/catch` is an
  explicit match on the fallible part.  Store read failure and write
  failure are modelled by an outcome/environment parameter, since the
  store itself is an external collaborator of the program.
-/

/-- A JavaScript `Date`: a valid instant (milliseconds since the epoch) or
the Invalid Date value produced by failed parses. -/
inductive JsDate where
  | valid (ms : Int)
  | invalid
  deriving DecidableEq, Repr

/-- True on valid instants. -/
def JsDate.isValid : JsDate → Bool
  | JsDate.valid _ => true
  | JsDate.invalid => false

/-- The `Template` record of `src/types/index.ts`. -/
structure Template where
  id : String
  title : String
  content : String
  createdAt : JsDate
  updatedAt : JsDate
  deriving DecidableEq, Repr

/-- The `Variable` record of `src/types/index.ts`. -/
structure Variable where
  id : String
  name : String
  value : String
  description : Option String := none
  createdAt : JsDate
  updatedAt : JsDate
  deriving DecidableEq, Repr

/-- The `ValidationError` record of `src/types/index.ts`. -/
structure ValidationError where
  field : String
  message : String
  deriving DecidableEq, Repr

/-- JavaScript `String.prototype.trim` on character lists: drop leading and
trailing whitespace. -/
def jsTrim (cs : List Char) : List Char :=
  ((cs.dropWhile Char.isWhitespace).reverse.dropWhile Char.isWhitespace).reverse

/-- The trimmed placeholder name obtained from the raw characters captured
between the brace markers (`match[1].trim()` in the source). -/
def trimName (run : List Char) : String :=
  (jsTrim run).asString

/-- Result of attempting the regex pattern at the head of the input: either
no match starts here, or a match whose capture group is `run` and whose
remainder after the closing braces is `rest3`. -/
inductive ScanStep where
  | noMatch
  | matched (run rest3 : List Char)
  deriving DecidableEq, Repr

/-- One attempt of the source pattern (two literal open braces, a nonempty
greedy run of characters other than a close brace, two literal close
braces) at the current position, exactly as the JavaScript regex engine
attempts it: the greedy run cannot backtrack into a close brace, so the
attempt succeeds here exactly when two close braces immediately follow a
nonempty close-brace-free run. -/
def findAt : List Char → ScanStep
  | '{' :: '{' :: rest =>
    match rest.dropWhile (fun c => c != '}') with
    | '}' :: '}' :: rest3 =>
      if (rest.takeWhile (fun c => c != '}')).isEmpty then ScanStep.noMatch
      else ScanStep.matched (rest.takeWhile (fun c => c != '}')) rest3
    | _ => ScanStep.noMatch
  | _ => ScanStep.noMatch

/-- The `while ((match = regex.exec(content)) !== null)` loop of
`extractVariables` in `src/utils/templateProcessor.ts`: scan left to right;
on each match push the trimmed name if it is nonempty (JavaScript string
truthiness) and not already collected; on no match advance one character.
Fuel-driven for structural recursion; fuel = input length suffices. -/
def execLoopF : Nat → List Char → List String → List String
  | 0, _, vars => vars
  | _ + 1, [], vars => vars
  | fuel + 1, c :: rest, vars =>
    match findAt (c :: rest) with
    | ScanStep.matched run rest3 =>
      execLoopF fuel rest3
        (if trimName run ≠ "" ∧ trimName run ∉ vars
         then vars ++ [trimName run] else vars)
    | ScanStep.noMatch => execLoopF fuel rest vars

/-- `extractVariables` of `src/utils/templateProcessor.ts`. -/
def extractVariables (content : String) : List String :=
  execLoopF content.data.length content.data []

/-- The lookup function of the `Map` built by `processTemplate`
(`new Map(variables.map(v => [v.name, v.value]))`): on duplicate names the
later entry wins, absent names give `none` (JavaScript `undefined`). -/
def variableMapGet (vars : List Variable) (name : String) : Option String :=
  ((vars.map (fun v => (v.name, v.value))).reverse.find? (fun p => p.1 == name)).map
    (fun p => p.2)

/-- The full text of a match whose capture group is `run`, braces included. -/
def matchText (run : List Char) : List Char :=
  '{' :: '{' :: (run ++ ['}', '}'])

/-- The global-regex `String.prototype.replace` pass of `processTemplate`:
each match is replaced by `variableMap.get(trimmedName) || match`, i.e. by
the looked-up value when present and nonempty, and by the original matched
text (braces included) otherwise; unmatched characters are copied through;
replacements are not rescanned. -/
def substAuxF (variableMap : String → Option String) : Nat → List Char → List Char
  | 0, _ => []
  | _ + 1, [] => []
  | fuel + 1, c :: rest =>
    match findAt (c :: rest) with
    | ScanStep.matched run rest3 =>
      (match variableMap (trimName run) with
       | some v => if v = "" then matchText run else v.data
       | none => matchText run) ++ substAuxF variableMap fuel rest3
    | ScanStep.noMatch => c :: substAuxF variableMap fuel rest

/-- `processTemplate` of `src/utils/templateProcessor.ts`. -/
def processTemplate (template : Template) (vars : List Variable) : String :=
  (substAuxF (variableMapGet vars) template.content.data.length template.content.data).asString

/-- `validateTemplate` of `src/utils/templateProcessor.ts`: one error is
appended, in extraction order, for each extracted name not among the
available variable names. -/
def validateTemplate (template : Template) (availableVariables : List Variable) :
    List ValidationError :=
  (extractVariables template.content).foldl
    (fun errors variableName =>
      if variableName ∈ availableVariables.map (fun v => v.name) then errors
      else errors ++
        [{ field := "content",
           message := "Variable \x27" ++ variableName ++ "\x27 is not defined in settings" }])
    []

/-- Token of the spec-side decomposition of content: a literal character or
a placeholder occurrence capturing `run`. -/
inductive Tok where
  | lit (c : Char)
  | hole (run : List Char)
  deriving DecidableEq, Repr

/-- Spec-side scan (section 4.1 of the spec): scan content left to right
for the marker pattern — two open braces, then the shortest run of
characters not containing a close brace, then two close braces — and
decompose the content into literal characters and placeholder matches. -/
def tokenizeF : Nat → List Char → List Tok
  | 0, _ => []
  | _ + 1, [] => []
  | fuel + 1, c :: rest =>
    match findAt (c :: rest) with
    | ScanStep.matched run rest3 => Tok.hole run :: tokenizeF fuel rest3
    | ScanStep.noMatch => Tok.lit c :: tokenizeF fuel rest

/-- The decomposition of a content string into tokens. -/
def tokenize (content : String) : List Tok :=
  tokenizeF content.data.length content.data

/-- The original text of a token. -/
def tokText : Tok → List Char
  | Tok.lit c => [c]
  | Tok.hole run => matchText run

/-- Reassembled text of a token list. -/
def detok (toks : List Tok) : List Char :=
  (toks.map tokText).flatten

/-- Trimmed names of the placeholder occurrences of a token list, in match
order, duplicates included. -/
def holeNames (toks : List Tok) : List String :=
  toks.filterMap (fun t =>
    match t with
    | Tok.hole run => some (trimName run)
    | Tok.lit _ => none)

/-- All trimmed placeholder names of a content string in occurrence order,
duplicates and empty names included. -/
def rawNames (content : String) : List String :=
  holeNames (tokenize content)

/-- Spec-side rendering of one token under a name-to-value lookup
(section 4.1 of the spec, `substitute`): a placeholder occurrence becomes
the looked-up value for its trimmed name; if the name is absent or its
value is empty, the original matched text, braces included, stays in
place; literal characters stay themselves. -/
def renderTok (variableMap : String → Option String) : Tok → List Char
  | Tok.lit c => [c]
  | Tok.hole run =>
    match variableMap (trimName run) with
    | some v => if v = "" then matchText run else v.data
    | none => matchText run

/-- Spec-side accumulation step of `extractPlaceholders`: push a name if it
is nonempty and new. -/
def pushIf (vars : List String) (variableName : String) : List String :=
  if variableName ≠ "" ∧ variableName ∉ vars then vars ++ [variableName]
  else vars

/-- First-occurrence-order de-duplication (section 4.1 of the spec): keep
each name once, at the position of its first occurrence. -/
def dedupFirstOcc : List String → List String
  | [] => []
  | x :: xs => x :: (dedupFirstOcc xs).filter (fun y => y ≠ x)

/-- Does the scan find any placeholder occurrence in the content? -/
def hasPlaceholder (content : String) : Bool :=
  (tokenize content).any (fun t =>
    match t with
    | Tok.hole _ => true
    | Tok.lit _ => false)

/-- A JSON value: the result of `JSON.parse`, and also the value shape the
chrome storage API persists (it serializes like `JSON.stringify`, so `Date`
objects are stored through their ISO string and `undefined` fields are
omitted).  Numbers are modelled as integers; none of the studied code
stores non-integer numbers. -/
inductive Json where
  | null
  | bool (b : Bool)
  | num (n : Int)
  | str (s : String)
  | arr (elems : List Json)
  | obj (fields : List (String × Json))

/-- JavaScript falsiness of a JSON value (`null`, `false`, `0` and the
empty string are falsy; arrays and objects are always truthy). -/
def isFalsy : Json → Bool
  | Json.null => true
  | Json.bool b => !b
  | Json.num n => n == 0
  | Json.str s => s == ""
  | Json.arr _ => false
  | Json.obj _ => false

/-- JavaScript truthiness of a field access result: an absent field is
`undefined`, hence falsy. -/
def jsTruthy : Option Json → Bool
  | none => false
  | some j => !(isFalsy j)

/-- Property access `j[key]` on a parsed JSON value: a lookup among the
fields of an object (objects produced by `JSON.parse` have unique keys),
`undefined` (`none`) on any non-object. -/
def objGet (j : Json) (key : String) : Option Json :=
  match j with
  | Json.obj fields =>
    match fields.find? (fun p => p.1 == key) with
    | some p => some p.2
    | none => none
  | _ => none

/-- Character of a single decimal digit. -/
def digitChar (d : Nat) : Char :=
  Char.ofNat (48 + d)

/-- Decimal digits of a positive number, most significant first; fuel-driven
(`fuel = n` suffices since `n / 10` shrinks at every step). -/
def natDecAux : Nat → Nat → List Char
  | 0, _ => []
  | _ + 1, 0 => []
  | fuel + 1, n + 1 => natDecAux fuel ((n + 1) / 10) ++ [digitChar ((n + 1) % 10)]

/-- Decimal rendering of a natural number. -/
def natDec (n : Nat) : List Char :=
  if n = 0 then ['0'] else natDecAux n n

/-- The serialized form of a valid date instant: the model of
`Date.prototype.toISOString` — an injective textual rendering of the
millisecond instant, here its signed decimal numeral. -/
def dateRender (ms : Int) : String :=
  if ms < 0 then ('-' :: natDec ms.natAbs).asString else (natDec ms.natAbs).asString

/-- Numeric value of a digit character. -/
def digitVal (c : Char) : Nat :=
  c.toNat - 48

/-- Is the character a decimal digit? -/
def isDigitChar (c : Char) : Bool :=
  48 ≤ c.toNat && c.toNat ≤ 57

/-- Parse an unsigned decimal numeral. -/
def parseNatDec (cs : List Char) : Option Nat :=
  if cs ≠ [] ∧ cs.all isDigitChar then some (cs.foldl (fun a c => 10 * a + digitVal c) 0)
  else none

/-- Parse the serialized form of a date instant back to the instant: the
model of the `Date` string parser on the strings `dateRender` produces;
anything else is rejected. -/
def parseDateString (s : String) : Option Int :=
  if s.data.head? = some '-' then (parseNatDec s.data.tail).map (fun n => -(n : Int))
  else (parseNatDec s.data).map (fun n => (n : Int))

/-- The `new Date(x)` conversion applied to a rehydrated field
(`new Date(template.createdAt)` in the source): a string is parsed (an
unparseable string gives the Invalid Date), a number is taken as a
millisecond instant, `null` coerces to the epoch, booleans coerce through
0/1, an absent field is `undefined` and gives the Invalid Date, and array
or object arguments are modelled as the Invalid Date. -/
def newDate : Option Json → JsDate
  | some (Json.str s) =>
    match parseDateString s with
    | some ms => JsDate.valid ms
    | none => JsDate.invalid
  | some (Json.num n) => JsDate.valid n
  | some Json.null => JsDate.valid 0
  | some (Json.bool b) => JsDate.valid (if b then 1 else 0)
  | some (Json.arr _) => JsDate.invalid
  | some (Json.obj _) => JsDate.invalid
  | none => JsDate.invalid

/-- Serialized JSON form of a date field as `JSON.stringify` and the chrome
storage API produce it: a valid date serializes to its ISO string, the
Invalid Date serializes to `null`. -/
def dateEncode : JsDate → Json
  | JsDate.valid ms => Json.str (dateRender ms)
  | JsDate.invalid => Json.null

/-- Serialized JSON form of a `Template` record. -/
def encodeTemplate (t : Template) : Json :=
  Json.obj [("id", Json.str t.id), ("title", Json.str t.title),
    ("content", Json.str t.content), ("createdAt", dateEncode t.createdAt),
    ("updatedAt", dateEncode t.updatedAt)]

/-- Serialized JSON form of a `Variable` record; an absent description is
omitted, as `JSON.stringify` omits `undefined` fields. -/
def encodeVariable (v : Variable) : Json :=
  Json.obj ([("id", Json.str v.id), ("name", Json.str v.name),
    ("value", Json.str v.value)] ++
    (match v.description with
     | some d => [("description", Json.str d)]
     | none => []) ++
    [("createdAt", dateEncode v.createdAt), ("updatedAt", dateEncode v.updatedAt)])

/-- String field of a rehydrated record.  The source spreads the parsed
object (`{...template}`), so a field keeps whatever value the JSON held;
the model projects the string case, which is the only one a record
serialized by this program can hold, and defaults to the empty string. -/
def fieldStr (j : Json) (key : String) : String :=
  match objGet j key with
  | some (Json.str s) => s
  | _ => ""

/-- Optional string field of a rehydrated record (the `description`). -/
def fieldStrOpt (j : Json) (key : String) : Option String :=
  match objGet j key with
  | some (Json.str s) => some s
  | _ => none

/-- One element of the template rehydration map of the source
(`{...template, createdAt: new Date(...), updatedAt: new Date(...)}`). -/
def decodeTemplate (j : Json) : Template :=
  { id := fieldStr j "id", title := fieldStr j "title",
    content := fieldStr j "content",
    createdAt := newDate (objGet j "createdAt"),
    updatedAt := newDate (objGet j "updatedAt") }

/-- One element of the variable rehydration map of the source. -/
def decodeVariable (j : Json) : Variable :=
  { id := fieldStr j "id", name := fieldStr j "name",
    value := fieldStr j "value", description := fieldStrOpt j "description",
    createdAt := newDate (objGet j "createdAt"),
    updatedAt := newDate (objGet j "updatedAt") }

/-- The external key-value store (`chrome.storage.local`): an association
list from keys to stored JSON values; a set shadows earlier entries. -/
def Store : Type := List (String × Json)

/-- Store read of one key. -/
def storeGet (s : Store) (key : String) : Option Json :=
  match s with
  | [] => none
  | (k, v) :: rest => if k == key then some v else storeGet rest key

/-- Store write of one key. -/
def storeSet (s : Store) (key : String) (v : Json) : Store :=
  (key, v) :: s

/-- The fixed template collection key (`STORAGE_KEYS.TEMPLATES`). -/
def templatesKey : String := "support_templates"

/-- The fixed variable collection key (`STORAGE_KEYS.VARIABLES`). -/
def variablesKey : String := "support_variables"

/-- Outcome of one asynchronous store read: the promise resolves with the
value under the key (or with nothing when the key is absent), or rejects. -/
inductive ReadOutcome where
  | ok (v : Option Json)
  | err

/-- A unit marker for a thrown JavaScript exception whose identity the
studied code never inspects. -/
inductive JsError where
  | thrown

/-- The `try` block of `StorageService.getTemplates`: take the stored value
or `[]` when it is absent or falsy (`result[key] || []`), then run the
rehydration map over it — calling `.map` on a non-array value throws a
`TypeError`. -/
def getTemplatesBody (v : Option Json) : Except JsError (List Template) :=
  match (match v with
         | some j => if isFalsy j then Json.arr [] else j
         | none => Json.arr []) with
  | Json.arr xs => Except.ok (xs.map decodeTemplate)
  | _ => Except.error JsError.thrown

/-- `StorageService.getTemplates` under an explicit read outcome: a rejected
read and any exception of the body are caught and yield `[]`. -/
def getTemplatesRun (o : ReadOutcome) : List Template :=
  match o with
  | ReadOutcome.err => []
  | ReadOutcome.ok v =>
    match getTemplatesBody v with
    | Except.ok templates => templates
    | Except.error _ => []

/-- The `try` block of `StorageService.getVariables`. -/
def getVariablesBody (v : Option Json) : Except JsError (List Variable) :=
  match (match v with
         | some j => if isFalsy j then Json.arr [] else j
         | none => Json.arr []) with
  | Json.arr xs => Except.ok (xs.map decodeVariable)
  | _ => Except.error JsError.thrown

/-- `StorageService.getVariables` under an explicit read outcome. -/
def getVariablesRun (o : ReadOutcome) : List Variable :=
  match o with
  | ReadOutcome.err => []
  | ReadOutcome.ok v =>
    match getVariablesBody v with
    | Except.ok vs => vs
    | Except.error _ => []

/-- `StorageService.getTemplates` against a store whose read succeeds. -/
def getTemplates (s : Store) : List Template :=
  getTemplatesRun (ReadOutcome.ok (storeGet s templatesKey))

/-- `StorageService.getVariables` against a store whose read succeeds. -/
def getVariables (s : Store) : List Variable :=
  getVariablesRun (ReadOutcome.ok (storeGet s variablesKey))

/-- Which of the two pending writes succeed (the store is external; either
`chrome.storage.local.set` call may reject independently). -/
structure WriteEnv where
  templatesOk : Bool
  variablesOk : Bool

/-- `StorageService.saveAllData`: both collection writes are attempted (the
source awaits `Promise.all` of the two `set` calls); the resulting store
holds every successful write, and the call as a whole succeeds only when
both writes do.  Writing serializes each record as the storage API does. -/
def saveAllData (env : WriteEnv) (s : Store) (templates : List Template)
    (vars : List Variable) : Store × Bool :=
  let s1 := if env.templatesOk
    then storeSet s templatesKey (Json.arr (templates.map encodeTemplate)) else s
  let s2 := if env.variablesOk
    then storeSet s1 variablesKey (Json.arr (vars.map encodeVariable)) else s1
  (s2, env.templatesOk && env.variablesOk)

/-- `StorageService.exportData`: load both collections, wrap them with the
version string and the export instant, and serialize.  The result models
the structured content of the exported JSON text (`JSON.stringify` of the
bundle object, whose parse is exactly this value). -/
def exportData (s : Store) (exportedAt : String) : Json :=
  Json.obj [("templates", Json.arr ((getTemplates s).map encodeTemplate)),
    ("variables", Json.arr ((getVariables s).map encodeVariable)),
    ("version", Json.str "1.0.0"),
    ("exportedAt", Json.str exportedAt)]

/-- Input handed to `StorageService.importData`: the structured value of the
given text when `JSON.parse` accepts it, the `malformed` marker when the
text is not parseable as JSON (the parse throws). -/
inductive ImportInput where
  | malformed
  | parsed (j : Json)

/-- The uniform import failure message of the source
(`throw new Error('Failed to import data. Please check the file format.')`). -/
def importErrorMsg : String :=
  "Failed to import data. Please check the file format."

/-- Result of `StorageService.importData`: success, or the uniform failure;
both carry the store as it stands after the call. -/
inductive ImportResult where
  | success (s : Store)
  | failure (msg : String) (s : Store)

/-- `StorageService.importData`: parse the text (a parse failure is caught);
reject the bundle when either top-level field is missing or falsy
(`!importData.templates || !importData.variables`); rehydrate both record
arrays the same way the loaders do — `.map` on a non-array field value
throws, which the catch turns into the uniform failure before any write is
attempted; finally save both collections, any write failure surfacing as
the same uniform failure. -/
def importData (env : WriteEnv) (s : Store) (input : ImportInput) : ImportResult :=
  match input with
  | ImportInput.malformed => ImportResult.failure importErrorMsg s
  | ImportInput.parsed j =>
    if !(jsTruthy (objGet j "templates")) || !(jsTruthy (objGet j "variables")) then
      ImportResult.failure importErrorMsg s
    else
      match objGet j "templates", objGet j "variables" with
      | some (Json.arr txs), some (Json.arr vxs) =>
        match saveAllData env s (txs.map decodeTemplate) (vxs.map decodeVariable) with
        | (s2, true) => ImportResult.success s2
        | (s2, false) => ImportResult.failure importErrorMsg s2
      | _, _ => ImportResult.failure importErrorMsg s

example : extractVariables "Hello \x7b\x7bname\x7d\x7d, your order \x7b\x7border_id\x7d\x7d is ready." = ["name", "order_id"] := by decide
example : extractVariables "Hello \x7b\x7bname\x7d\x7d, \x7b\x7bname\x7d\x7d is your name." = ["name"] := by decide
example : extractVariables "Hello \x7b\x7b agent_name \x7d\x7d, your order is ready." = ["agent_name"] := by decide
example : extractVariables "Hello world, this is a simple message." = [] := by decide
example : extractVariables "\x7b\x7border_\x7b\x7btype\x7d\x7d_id\x7d\x7d" = ["order_\x7b\x7btype"] := by decide
example : extractVariables "\x7b\x7b \x7d\x7d" = [] := by decide
example : rawNames "\x7b\x7b \x7d\x7d" = [""] := by decide

theorem asString_data (s : String) : s.data.asString = s := rfl

theorem findAt_eq_matched (cs run rest3 : List Char)
    (h : findAt cs = ScanStep.matched run rest3) :
    cs = '{' :: '{' :: (run ++ '}' :: '}' :: rest3) ∧ run ≠ [] ∧
      run.all (fun c => c != '}') = true := by
  unfold findAt at h
  split at h
  case _ rest =>
    split at h
    case _ r3 htail =>
      split at h
      case isTrue => exact absurd h (by simp)
      case isFalse hne =>
        injection h with h1 h2
        subst h1
        subst h2
        have hsplit : (rest.takeWhile (fun c => c != '}')) ++ '}' :: '}' :: r3 = rest := by
          conv_rhs => rw [← List.takeWhile_append_dropWhile (p := fun c => c != '}') (l := rest)]
          rw [htail]
        refine ⟨by rw [hsplit], by simpa [List.isEmpty_iff] using hne, ?_⟩
        rw [List.all_eq_true]
        intro c hc
        exact List.mem_takeWhile_imp (p := fun c => c != '}') hc
    case _ => exact absurd h (by simp)
  case _ => exact absurd h (by simp)

theorem execLoopF_eq (fuel : Nat) : ∀ (cs : List Char) (acc : List String),
    execLoopF fuel cs acc = (holeNames (tokenizeF fuel cs)).foldl pushIf acc := by
  induction fuel with
  | zero => intro cs acc; simp [execLoopF, tokenizeF, holeNames]
  | succ fuel ih =>
    intro cs acc
    match cs with
    | [] => simp [execLoopF, tokenizeF, holeNames]
    | c :: rest =>
      cases h : findAt (c :: rest) with
      | noMatch => simp [execLoopF, tokenizeF, h, holeNames, ih]
      | matched run rest3 =>
        simp only [execLoopF, tokenizeF, h, holeNames, List.filterMap_cons, List.foldl_cons, ih]
        rfl

theorem substAuxF_eq (variableMap : String → Option String) (fuel : Nat) :
    ∀ cs : List Char,
    substAuxF variableMap fuel cs = ((tokenizeF fuel cs).map (renderTok variableMap)).flatten := by
  induction fuel with
  | zero => intro cs; simp [substAuxF, tokenizeF]
  | succ fuel ih =>
    intro cs
    match cs with
    | [] => simp [substAuxF, tokenizeF]
    | c :: rest =>
      cases h : findAt (c :: rest) with
      | noMatch => simp [substAuxF, tokenizeF, h, renderTok, ih]
      | matched run rest3 =>
        simp only [substAuxF, tokenizeF, h, List.map_cons, List.flatten_cons, ih]
        rfl

theorem detok_tokenizeF (fuel : Nat) : ∀ cs : List Char, cs.length ≤ fuel →
    detok (tokenizeF fuel cs) = cs := by
  induction fuel with
  | zero =>
    intro cs h
    rw [List.length_eq_zero.mp (Nat.le_zero.mp h)]
    simp [tokenizeF, detok]
  | succ fuel ih =>
    intro cs h
    match cs with
    | [] => simp [tokenizeF, detok]
    | c :: rest =>
      cases hf : findAt (c :: rest) with
      | noMatch =>
        simp only [tokenizeF, hf, detok, List.map_cons, List.flatten_cons, tokText]
        have := ih rest (by simpa using Nat.le_of_succ_le_succ h)
        simp [detok] at this
        simp [this]
      | matched run rest3 =>
        obtain ⟨hcs, hne, -⟩ := findAt_eq_matched _ _ _ hf
        have hlen : rest3.length ≤ fuel := by
          have hl := congrArg List.length hcs
          have hrun : 1 ≤ run.length := List.length_pos.mpr hne
          simp [List.length_append] at hl h
          omega
        simp only [tokenizeF, hf, detok, List.map_cons, List.flatten_cons, tokText]
        have := ih rest3 hlen
        simp [detok] at this
        rw [this, hcs]
        simp [matchText]

theorem tokenizeF_hole (fuel : Nat) : ∀ (cs run : List Char),
    Tok.hole run ∈ tokenizeF fuel cs →
    run ≠ [] ∧ run.all (fun c => c != '}') = true := by
  induction fuel with
  | zero => intro cs run h; simp [tokenizeF] at h
  | succ fuel ih =>
    intro cs run h
    match cs with
    | [] => simp [tokenizeF] at h
    | c :: rest =>
      cases hf : findAt (c :: rest) with
      | noMatch =>
        rw [tokenizeF, hf] at h
        simp only [List.mem_cons] at h
        rcases h with h | h
        · exact absurd h (by simp)
        · exact ih rest run h
      | matched run2 rest3 =>
        rw [tokenizeF, hf] at h
        simp only [List.mem_cons] at h
        rcases h with h | h
        · obtain ⟨-, hne, hall⟩ := findAt_eq_matched _ _ _ hf
          injection h with h1
          subst h1
          exact ⟨hne, hall⟩
        · exact ih rest3 run h

theorem filter_comm (p q : String → Bool) (l : List String) :
    (l.filter p).filter q = (l.filter q).filter p := by
  induction l with
  | nil => rfl
  | cons x xs ih =>
    by_cases hp : p x = true <;> by_cases hq : q x = true <;>
      simp [List.filter_cons, hp, hq, ih]

theorem dedupFirstOcc_filter (p : String → Bool) : ∀ l : List String,
    dedupFirstOcc (l.filter p) = (dedupFirstOcc l).filter p := by
  intro l
  induction l with
  | nil => rfl
  | cons x xs ih =>
    by_cases hp : p x = true
    · rw [List.filter_cons_of_pos hp, dedupFirstOcc, dedupFirstOcc, ih,
        List.filter_cons_of_pos hp]
      exact congrArg (x :: ·) (filter_comm _ _ _)
    · rw [List.filter_cons_of_neg (by simpa using hp), dedupFirstOcc, ih,
        List.filter_cons_of_neg (by simpa using hp), filter_comm]
      symm
      apply List.filter_eq_self.mpr
      intro y hy
      have hpy := (List.mem_filter.mp hy).2
      have hne : y ≠ x := fun he => hp (he ▸ hpy)
      simpa using hne

theorem mem_dedupFirstOcc (x : String) : ∀ l : List String, x ∈ dedupFirstOcc l → x ∈ l := by
  intro l
  induction l with
  | nil => simp [dedupFirstOcc]
  | cons y ys ih =>
    intro h
    rw [dedupFirstOcc] at h
    rcases List.mem_cons.mp h with h | h
    · exact h ▸ List.mem_cons_self _ _
    · exact List.mem_cons_of_mem _ (ih (List.mem_filter.mp h).1)

theorem foldl_pushIf : ∀ (l acc : List String),
    l.foldl pushIf acc =
      acc ++ dedupFirstOcc ((l.filter (fun n => n ≠ "")).filter (fun n => n ∉ acc)) := by
  intro l
  induction l with
  | nil => intro acc; simp [dedupFirstOcc]
  | cons n rest ih =>
    intro acc
    rw [List.foldl_cons]
    by_cases hn : n = ""
    · subst hn
      have hpush : pushIf acc "" = acc := by simp [pushIf]
      rw [hpush, ih acc, List.filter_cons_of_neg (by simp)]
    · by_cases hm : n ∈ acc
      · have hpush : pushIf acc n = acc := by simp [pushIf, hm]
        rw [hpush, ih acc, List.filter_cons_of_pos (by simpa using hn),
          List.filter_cons_of_neg (by simpa using hm)]
      · have hpush : pushIf acc n = acc ++ [n] := by simp [pushIf, hn, hm]
        have hsplit : (rest.filter (fun n => n ≠ "")).filter (fun y => y ∉ acc ++ [n]) =
            ((rest.filter (fun n => n ≠ "")).filter (fun y => y ∉ acc)).filter
              (fun y => y ≠ n) := by
          rw [List.filter_filter, List.filter_filter, List.filter_filter]
          apply List.filter_congr
          intro y hy
          by_cases h1 : y ∈ acc <;> by_cases h2 : y = n <;> by_cases h3 : y = "" <;>
            simp [h1, h2, h3, List.mem_append]
        rw [hpush, ih (acc ++ [n]),
          List.filter_cons_of_pos (by simpa using hn),
          List.filter_cons_of_pos (by simp [hm])]
        calc acc ++ [n] ++
            dedupFirstOcc ((rest.filter (fun n => n ≠ "")).filter (fun y => y ∉ acc ++ [n]))
            = acc ++ [n] ++
              dedupFirstOcc (((rest.filter (fun n => n ≠ "")).filter
                (fun y => y ∉ acc)).filter (fun y => y ≠ n)) := by rw [hsplit]
          _ = acc ++ [n] ++
              (dedupFirstOcc ((rest.filter (fun n => n ≠ "")).filter
                (fun y => y ∉ acc))).filter (fun y => y ≠ n) := by
                rw [dedupFirstOcc_filter]
          _ = acc ++ dedupFirstOcc (n :: (rest.filter (fun n => n ≠ "")).filter
                (fun y => y ∉ acc)) := by
                rw [dedupFirstOcc]
                simp

theorem extractVariables_eq_dedup (content : String) :
    extractVariables content =
      dedupFirstOcc ((rawNames content).filter (fun n => n ≠ "")) := by
  rw [extractVariables, execLoopF_eq]
  have : (rawNames content).filter (fun n => n ≠ "") =
      ((rawNames content).filter (fun n => n ≠ "")).filter
        (fun n => n ∉ ([] : List String)) := by
    symm
    apply List.filter_eq_self.mpr
    intro y _
    simp
  rw [this]
  exact foldl_pushIf _ []

theorem mem_jsTrim (c : Char) (run : List Char) (h : c ∈ jsTrim run) : c ∈ run := by
  unfold jsTrim at h
  rw [List.mem_reverse] at h
  have h1 := (List.dropWhile_sublist _).subset h
  rw [List.mem_reverse] at h1
  exact (List.dropWhile_sublist _).subset h1

theorem mem_rawNames (content : String) (n : String) (h : n ∈ rawNames content) :
    ∃ run : List Char, Tok.hole run ∈ tokenize content ∧ n = trimName run := by
  rw [rawNames, holeNames] at h
  rcases List.mem_filterMap.mp h with ⟨t, ht, hf⟩
  match t with
  | Tok.lit c => simp at hf
  | Tok.hole run =>
    refine ⟨run, ht, ?_⟩
    simp at hf
    exact hf.symm

theorem extractVariables_no_close_brace (content : String) (n : String)
    (h : n ∈ extractVariables content) : '}' ∉ n.data := by
  rw [extractVariables_eq_dedup] at h
  have h1 := mem_dedupFirstOcc _ _ h
  have h2 := (List.mem_filter.mp h1).1
  rcases mem_rawNames content n h2 with ⟨run, hrun, hname⟩
  obtain ⟨-, hall⟩ := tokenizeF_hole _ _ _ hrun
  intro hc
  rw [hname, trimName] at hc
  have hc2 : '}' ∈ jsTrim run := by simpa using hc
  have hc3 := mem_jsTrim _ _ hc2
  have := (List.all_eq_true.mp hall) _ hc3
  simp at this

theorem foldl_validate (names : List String) :
    ∀ (l : List String) (acc : List ValidationError),
    l.foldl (fun errors variableName =>
      if variableName ∈ names then errors
      else errors ++
        [{ field := "content",
           message := "Variable \x27" ++ variableName ++ "\x27 is not defined in settings" }]) acc =
    acc ++ (l.filter (fun n => n ∉ names)).map (fun n =>
      { field := "content",
        message := "Variable \x27" ++ n ++ "\x27 is not defined in settings" }) := by
  intro l
  induction l with
  | nil => intro acc; simp
  | cons n rest ih =>
    intro acc
    rw [List.foldl_cons]
    by_cases h : n ∈ names
    · rw [if_pos h, ih, List.filter_cons_of_neg (by simpa using h)]
    · rw [if_neg h, ih, List.filter_cons_of_pos (by simpa using h)]
      simp

/-- Claim C1, amended (the source filters out names that trim to the empty
string, so only the nonempty trimmed names are returned): for every content
string, `extractVariables` returns the de-duplicated sequence of the
nonempty trimmed placeholder names in first-occurrence order — each
distinct name appears exactly once, at the position of its first
occurrence — and running the extraction twice on the same content yields
identical sequences. -/
theorem extractVariables_dedup_firstOccurrence (content : String) :
    extractVariables content =
      dedupFirstOcc ((rawNames content).filter (fun n => n ≠ "")) ∧
    extractVariables content = extractVariables content :=
  ⟨extractVariables_eq_dedup content, rfl⟩

/-- Claim C1, counterexample to the unamended statement: on content holding
the placeholders `a` and a whitespace-only one, the de-duplicated sequence
of all trimmed placeholder names keeps the empty name, but the source drops
it, so extraction does not return the de-duplicated trimmed name sequence. -/
theorem extractVariables_unfiltered_dedup_false :
    extractVariables "\x7b\x7ba\x7d\x7d\x7b\x7b \x7d\x7d" = ["a"] ∧
    dedupFirstOcc (rawNames "\x7b\x7ba\x7d\x7d\x7b\x7b \x7d\x7d") = ["a", ""] ∧
    extractVariables "\x7b\x7ba\x7d\x7d\x7b\x7b \x7d\x7d" ≠
      dedupFirstOcc (rawNames "\x7b\x7ba\x7d\x7d\x7b\x7b \x7d\x7d") :=
  ⟨by decide, by decide, by decide⟩

/-- Claim C2: for every content string and variable list, substitution
equals the per-occurrence rendering of the scan decomposition — every
placeholder occurrence (repeats included, no de-duplication) becomes the
value looked up under its trimmed inner name, and the original matched
text, braces included, stays in place when the name is absent from the
mapping or maps to an empty value. -/
theorem processTemplate_renders_each_occurrence (template : Template)
    (vars : List Variable) :
    processTemplate template vars =
      (((tokenize template.content).map
        (renderTok (variableMapGet vars))).flatten).asString := by
  rw [processTemplate, substAuxF_eq]
  rfl

/-- Claim C4: validation returns exactly one error per extracted placeholder
name absent from the available names, in extraction (first-occurrence)
order; every error has field `content` and a message carrying the missing
name verbatim in the fixed format; no error arises for known names. -/
theorem validateTemplate_one_error_per_missing (template : Template)
    (availableVariables : List Variable) :
    validateTemplate template availableVariables =
      ((extractVariables template.content).filter
        (fun n => n ∉ availableVariables.map (fun v => v.name))).map
        (fun n => ValidationError.mk "content"
          ("Variable \x27" ++ n ++ "\x27 is not defined in settings")) ∧
    ∀ e ∈ validateTemplate template availableVariables,
      e.field = "content" ∧
      ∃ n, n ∈ extractVariables template.content ∧
        n ∉ availableVariables.map (fun v => v.name) ∧
        e.message = "Variable \x27" ++ n ++ "\x27 is not defined in settings" ∧
        n.data <:+: e.message.data := by
  have heq : validateTemplate template availableVariables =
      ((extractVariables template.content).filter
        (fun n => n ∉ availableVariables.map (fun v => v.name))).map
        (fun n => ValidationError.mk "content"
          ("Variable \x27" ++ n ++ "\x27 is not defined in settings")) := by
    rw [validateTemplate, foldl_validate]
    simp
  refine ⟨heq, ?_⟩
  intro e he
  rw [heq] at he
  rcases List.mem_map.mp he with ⟨n, hn, hmk⟩
  have hmem := (List.mem_filter.mp hn).1
  have hnot : n ∉ availableVariables.map (fun v => v.name) := by
    have := (List.mem_filter.mp hn).2
    simpa using this
  refine ⟨by rw [← hmk], n, hmem, hnot, by rw [← hmk], ?_⟩
  rw [← hmk]
  show n.data <:+: ("Variable \x27" ++ n ++ "\x27 is not defined in settings" : String).data
  refine ⟨("Variable \x27" : String).data, ("\x27 is not defined in settings" : String).data, ?_⟩
  simp [String.data_append]

/-- Claim C4, witness at a concrete template with one unknown placeholder. -/
theorem validateTemplate_one_error_per_missing_witness :
    ((ValidationError.mk "content"
        "Variable \x27miss\x27 is not defined in settings").field = "content") ∧
    ∃ n, n ∈ extractVariables
        (Template.mk "1" "T" "Hi \x7b\x7bmiss\x7d\x7d" JsDate.invalid JsDate.invalid).content ∧
      n ∉ ([] : List Variable).map (fun v => v.name) ∧
      (ValidationError.mk "content"
        "Variable \x27miss\x27 is not defined in settings").message
        = "Variable \x27" ++ n ++ "\x27 is not defined in settings" ∧
      n.data <:+: (ValidationError.mk "content"
        "Variable \x27miss\x27 is not defined in settings").message.data :=
  (validateTemplate_one_error_per_missing
    (Template.mk "1" "T" "Hi \x7b\x7bmiss\x7d\x7d" JsDate.invalid JsDate.invalid) []).2
    (ValidationError.mk "content" "Variable \x27miss\x27 is not defined in settings")
    (by decide)

/-- Claim C6, amended (the source special-cases whitespace-only inner text:
the `if (variableName && ...)` guard drops a name that trims to the empty
string): every extracted name is nonempty — the empty string never appears
among the extracted names. -/
theorem extractVariables_omits_empty_names (content : String) (n : String)
    (h : n ∈ extractVariables content) : n ≠ "" := by
  rw [extractVariables_eq_dedup] at h
  have h1 := mem_dedupFirstOcc _ _ h
  have h2 := (List.mem_filter.mp h1).2
  simpa using h2

/-- Claim C6, witness: the extracted name of a concrete placeholder is
nonempty. -/
theorem extractVariables_omits_empty_names_witness : ("name" : String) ≠ "" :=
  extractVariables_omits_empty_names "Hello \x7b\x7bname\x7d\x7d" "name" (by decide)

/-- Claim C6, counterexample to the stated claim: the whitespace-only
placeholder is a scan match whose trimmed name is the empty string, yet
extraction returns the empty sequence rather than including that name. -/
theorem extractVariables_empty_name_counterexample :
    rawNames "\x7b\x7b \x7d\x7d" = [""] ∧
    extractVariables "\x7b\x7b \x7d\x7d" = [] ∧
    "" ∉ extractVariables "\x7b\x7b \x7d\x7d" :=
  ⟨by decide, by decide, by decide⟩

/-- Claim C5: matching is non-recursive closing-brace-free shortest-run
matching, identical in extraction and substitution: on
`\x7b\x7border_\x7b\x7btype\x7d\x7d_id\x7d\x7d` the single placeholder name
is `order_\x7b\x7btype` (the nested open braces captured verbatim up to the
first eligible close marker), substitution replaces exactly that match and
leaves the dangling tail untouched, and no extracted name ever contains a
close-brace character. -/
theorem matching_shortest_brace_free :
    extractVariables "\x7b\x7border_\x7b\x7btype\x7d\x7d_id\x7d\x7d" = ["order_\x7b\x7btype"] ∧
    processTemplate
      (Template.mk "1" "T" "\x7b\x7border_\x7b\x7btype\x7d\x7d_id\x7d\x7d"
        JsDate.invalid JsDate.invalid)
      [Variable.mk "v" "order_\x7b\x7btype" "X" none JsDate.invalid JsDate.invalid]
      = "X_id\x7d\x7d" ∧
    ∀ (content n : String), n ∈ extractVariables content → '}' ∉ n.data :=
  ⟨by decide, by decide, fun content n h => extractVariables_no_close_brace content n h⟩

/-- Claim C5, witness for the quantified clause at the nested-brace
example. -/
theorem matching_shortest_brace_free_witness :
    '}' ∉ ("order_\x7b\x7btype" : String).data :=
  matching_shortest_brace_free.2.2 "\x7b\x7border_\x7b\x7btype\x7d\x7d_id\x7d\x7d"
    "order_\x7b\x7btype" (by decide)

/-- Claim C9: substitution is the identity on content in which the scan
finds no placeholder occurrence. -/
theorem processTemplate_identity_without_placeholders (template : Template)
    (vars : List Variable) (h : hasPlaceholder template.content = false) :
    processTemplate template vars = template.content := by
  rw [processTemplate, substAuxF_eq]
  have h2 : ∀ t ∈ tokenize template.content,
      renderTok (variableMapGet vars) t = tokText t := by
    intro t ht
    match t with
    | Tok.lit c => rfl
    | Tok.hole run =>
      exfalso
      rw [hasPlaceholder, List.any_eq_false] at h
      have := h _ ht
      simp at this
  have h3 : (tokenize template.content).map (renderTok (variableMapGet vars)) =
      (tokenize template.content).map tokText := List.map_congr_left h2
  have h4 : ((tokenize template.content).map tokText).flatten = template.content.data := by
    have := detok_tokenizeF template.content.data.length template.content.data (le_refl _)
    rw [detok] at this
    exact this
  show (((tokenize template.content).map
      (renderTok (variableMapGet vars))).flatten).asString = template.content
  rw [h3, h4, asString_data]

/-- Claim C9, witness on a concrete placeholder-free content. -/
theorem processTemplate_identity_without_placeholders_witness :
    processTemplate
      (Template.mk "1" "T" "Hello world, this is a simple message."
        JsDate.invalid JsDate.invalid) [] =
      "Hello world, this is a simple message." :=
  processTemplate_identity_without_placeholders _ _ (by decide)

theorem list_data_asString (l : List Char) : l.asString.data = l := rfl

theorem digitVal_digitChar (d : Nat) (h : d < 10) : digitVal (digitChar d) = d := by
  interval_cases d <;> decide

theorem isDigitChar_digitChar (d : Nat) (h : d < 10) : isDigitChar (digitChar d) = true := by
  interval_cases d <;> decide

theorem natDecAux_all (fuel : Nat) : ∀ n : Nat, (natDecAux fuel n).all isDigitChar = true := by
  induction fuel with
  | zero => intro n; rfl
  | succ fuel ih =>
    intro n
    match n with
    | 0 => rfl
    | n + 1 =>
      rw [natDecAux, List.all_append]
      have h10 : (n + 1) % 10 < 10 := Nat.mod_lt _ (by norm_num)
      simp [ih, isDigitChar_digitChar _ h10]

theorem natDecAux_foldl (fuel : Nat) : ∀ (n a : Nat), n ≤ fuel →
    (natDecAux fuel n).foldl (fun a c => 10 * a + digitVal c) a =
      a * 10 ^ (natDecAux fuel n).length + n := by
  induction fuel with
  | zero =>
    intro n a h
    have : n = 0 := Nat.le_zero.mp h
    subst this
    simp [natDecAux]
  | succ fuel ih =>
    intro n a h
    match n with
    | 0 => simp [natDecAux]
    | n + 1 =>
      rw [natDecAux, List.foldl_append, List.length_append]
      have hdiv : (n + 1) / 10 ≤ fuel := by
        have := Nat.div_lt_self (Nat.succ_pos n) (by norm_num : 1 < 10)
        omega
      rw [ih ((n + 1) / 10) a hdiv]
      have h10 : (n + 1) % 10 < 10 := Nat.mod_lt _ (by norm_num)
      simp only [List.foldl_cons, List.foldl_nil, List.length_cons, List.length_nil,
        digitVal_digitChar _ h10]
      rw [pow_succ, ← mul_assoc]
      generalize a * 10 ^ (natDecAux fuel ((n + 1) / 10)).length = A
      omega

theorem natDecAux_ne_nil (fuel : Nat) : ∀ n : Nat, 0 < n → n ≤ fuel → natDecAux fuel n ≠ [] := by
  intro n h1 h2
  match fuel, n with
  | 0, n => omega
  | fuel + 1, n + 1 => simp [natDecAux]

theorem natDec_all (n : Nat) : (natDec n).all isDigitChar = true := by
  by_cases h : n = 0
  · subst h; decide
  · rw [natDec, if_neg h]; exact natDecAux_all n n

theorem natDec_ne_nil (n : Nat) : natDec n ≠ [] := by
  by_cases h : n = 0
  · subst h; decide
  · rw [natDec, if_neg h]; exact natDecAux_ne_nil n n (Nat.pos_of_ne_zero h) (le_refl n)

theorem parseNatDec_natDec (n : Nat) : parseNatDec (natDec n) = some n := by
  by_cases h : n = 0
  · subst h; decide
  · rw [parseNatDec, if_pos ⟨natDec_ne_nil n, natDec_all n⟩, natDec, if_neg h]
    rw [natDecAux_foldl n n 0 (le_refl n)]
    simp

theorem natDec_head_ne_minus (n : Nat) : (natDec n).head? ≠ some '-' := by
  have hall := natDec_all n
  intro h
  rcases hd : natDec n with _ | ⟨c, cs⟩
  · rw [hd] at h; simp at h
  · rw [hd] at h hall
    simp at h
    subst h
    rw [List.all_cons] at hall
    simp [isDigitChar] at hall

theorem parseDateString_dateRender (ms : Int) : parseDateString (dateRender ms) = some ms := by
  by_cases h : ms < 0
  · rw [dateRender, if_pos h, parseDateString, list_data_asString]
    simp [parseNatDec_natDec]
    rw [abs_of_neg h, neg_neg]
  · rw [dateRender, if_neg h, parseDateString, list_data_asString,
      if_neg (natDec_head_ne_minus ms.natAbs)]
    simp [parseNatDec_natDec]
    exact le_of_not_lt h

theorem newDate_dateEncode (d : JsDate) (h : d.isValid = true) :
    newDate (some (dateEncode d)) = d := by
  match d with
  | JsDate.valid ms => simp [dateEncode, newDate, parseDateString_dateRender]
  | JsDate.invalid => simp [JsDate.isValid] at h

theorem decodeTemplate_encodeTemplate (t : Template)
    (h1 : t.createdAt.isValid = true) (h2 : t.updatedAt.isValid = true) :
    decodeTemplate (encodeTemplate t) = t := by
  cases t with
  | mk id title content ca ua =>
    have heq : decodeTemplate (encodeTemplate (Template.mk id title content ca ua)) =
        Template.mk id title content (newDate (some (dateEncode ca)))
          (newDate (some (dateEncode ua))) := rfl
    rw [heq, newDate_dateEncode ca h1, newDate_dateEncode ua h2]

theorem decodeVariable_encodeVariable (v : Variable)
    (h1 : v.createdAt.isValid = true) (h2 : v.updatedAt.isValid = true) :
    decodeVariable (encodeVariable v) = v := by
  cases v with
  | mk id name value description ca ua =>
    cases description with
    | some d =>
      have heq : decodeVariable (encodeVariable (Variable.mk id name value (some d) ca ua)) =
          Variable.mk id name value (some d) (newDate (some (dateEncode ca)))
            (newDate (some (dateEncode ua))) := rfl
      rw [heq, newDate_dateEncode ca h1, newDate_dateEncode ua h2]
    | none =>
      have heq : decodeVariable (encodeVariable (Variable.mk id name value none ca ua)) =
          Variable.mk id name value none (newDate (some (dateEncode ca)))
            (newDate (some (dateEncode ua))) := rfl
      rw [heq, newDate_dateEncode ca h1, newDate_dateEncode ua h2]

theorem map_decode_encode_templates (ts : List Template)
    (h : ∀ t ∈ ts, t.createdAt.isValid = true ∧ t.updatedAt.isValid = true) :
    ((ts.map encodeTemplate).map decodeTemplate) = ts := by
  rw [List.map_map]
  have h2 : ∀ t ∈ ts, (decodeTemplate ∘ encodeTemplate) t = id t := by
    intro t ht
    simp only [Function.comp_apply, id_eq]
    exact decodeTemplate_encodeTemplate t (h t ht).1 (h t ht).2
  rw [List.map_congr_left h2, List.map_id]

theorem map_decode_encode_variables (vs : List Variable)
    (h : ∀ v ∈ vs, v.createdAt.isValid = true ∧ v.updatedAt.isValid = true) :
    ((vs.map encodeVariable).map decodeVariable) = vs := by
  rw [List.map_map]
  have h2 : ∀ v ∈ vs, (decodeVariable ∘ encodeVariable) v = id v := by
    intro v hv
    simp only [Function.comp_apply, id_eq]
    exact decodeVariable_encodeVariable v (h v hv).1 (h v hv).2
  rw [List.map_congr_left h2, List.map_id]

/-- Claim C8: loading a collection never throws — under every read outcome
the call returns a plain list: a rejected read yields the empty sequence,
an absent key yields the empty sequence (also stated against any store
state missing the key), and a stored value on which the rehydration body
would throw (present, truthy, not an array) is swallowed into the empty
sequence as well, for both collections. -/
theorem loaders_never_throw_degrade_to_empty :
    (getTemplatesRun ReadOutcome.err = [] ∧ getVariablesRun ReadOutcome.err = []) ∧
    (getTemplatesRun (ReadOutcome.ok none) = [] ∧
      getVariablesRun (ReadOutcome.ok none) = []) ∧
    (∀ s : Store, storeGet s templatesKey = none → getTemplates s = []) ∧
    (∀ s : Store, storeGet s variablesKey = none → getVariables s = []) ∧
    (∀ j : Json, isFalsy j = false → (∀ xs, j ≠ Json.arr xs) →
      getTemplatesRun (ReadOutcome.ok (some j)) = [] ∧
      getVariablesRun (ReadOutcome.ok (some j)) = []) := by
  refine ⟨⟨rfl, rfl⟩, ⟨rfl, rfl⟩, ?_, ?_, ?_⟩
  · intro s h
    rw [getTemplates, h]
    rfl
  · intro s h
    rw [getVariables, h]
    rfl
  · intro j h1 h2
    cases j with
    | null => simp [isFalsy] at h1
    | bool b =>
      constructor <;> simp [getTemplatesRun, getVariablesRun, getTemplatesBody,
        getVariablesBody, h1]
    | num n =>
      constructor <;> simp [getTemplatesRun, getVariablesRun, getTemplatesBody,
        getVariablesBody, h1]
    | str s =>
      constructor <;> simp [getTemplatesRun, getVariablesRun, getTemplatesBody,
        getVariablesBody, h1]
    | arr xs => exact absurd rfl (h2 xs)
    | obj fields =>
      constructor <;> simp [getTemplatesRun, getVariablesRun, getTemplatesBody,
        getVariablesBody, h1]

/-- Claim C8, witness: a read rejection, an absent key, and a stored
non-array value all load as the empty collection. -/
theorem loaders_never_throw_degrade_to_empty_witness :
    getTemplatesRun (ReadOutcome.ok (some (Json.str "boom"))) = [] ∧
    getVariablesRun (ReadOutcome.ok (some (Json.str "boom"))) = [] :=
  loaders_never_throw_degrade_to_empty.2.2.2.2 (Json.str "boom") (by decide)
    (fun _ h => Json.noConfusion h)

/-- Claim C7: an unparseable input, and a parsed object missing the
templates field or the variables field, both make the import fail with the
single uniform failure message (a result distinguishable from success) and
leave the store exactly as it was — no write happens. -/
theorem importData_rejects_invalid_structure :
    (∀ (env : WriteEnv) (s : Store),
      importData env s ImportInput.malformed = ImportResult.failure importErrorMsg s) ∧
    ∀ (env : WriteEnv) (s : Store) (j : Json),
      objGet j "templates" = none ∨ objGet j "variables" = none →
      importData env s (ImportInput.parsed j) = ImportResult.failure importErrorMsg s := by
  constructor
  · intro env s
    rfl
  · intro env s j h
    rw [importData]
    rcases h with h | h <;> rw [h] <;> simp [jsTruthy]

/-- Claim C7, witness: non-JSON text and the object with neither expected
field are both rejected with the uniform failure, store untouched. -/
theorem importData_rejects_invalid_structure_witness :
    importData (WriteEnv.mk true true) ([] : Store)
      (ImportInput.parsed (Json.obj [("invalid", Json.str "data")])) =
      ImportResult.failure importErrorMsg ([] : Store) ∧
    importData (WriteEnv.mk true true) ([] : Store) ImportInput.malformed =
      ImportResult.failure importErrorMsg ([] : Store) :=
  ⟨importData_rejects_invalid_structure.2 (WriteEnv.mk true true) ([] : Store)
      (Json.obj [("invalid", Json.str "data")]) (Or.inl rfl),
    importData_rejects_invalid_structure.1 (WriteEnv.mk true true) ([] : Store)⟩

/-- Claim C10: a parsed object whose templates and variables fields are
both present and truthy, but at least one of which is not an array, still
fails with the uniform import failure and performs no writes — the
explicit validity check only tests field truthiness, and the rehydration
map throws on the non-array value before any write is attempted. -/
theorem importData_rejects_non_array_fields (env : WriteEnv) (s : Store)
    (j tj vj : Json)
    (h1 : objGet j "templates" = some tj) (h2 : jsTruthy (some tj) = true)
    (h3 : objGet j "variables" = some vj) (h4 : jsTruthy (some vj) = true)
    (h5 : (∀ xs, tj ≠ Json.arr xs) ∨ (∀ xs, vj ≠ Json.arr xs)) :
    importData env s (ImportInput.parsed j) = ImportResult.failure importErrorMsg s := by
  rw [importData, h1, h3, h2, h4]
  rw [if_neg (by decide)]
  cases tj <;> cases vj <;> try rfl
  case arr.arr txs vxs =>
    exfalso
    rcases h5 with h5 | h5
    · exact h5 txs rfl
    · exact h5 vxs rfl

/-- Claim C10, witness: a bundle whose templates field is a non-empty
string and whose variables field is an array is rejected without writes. -/
theorem importData_rejects_non_array_fields_witness :
    importData (WriteEnv.mk true true) ([] : Store)
      (ImportInput.parsed (Json.obj [("templates", Json.str "abc"),
        ("variables", Json.arr [])])) =
      ImportResult.failure importErrorMsg ([] : Store) :=
  importData_rejects_non_array_fields (WriteEnv.mk true true) ([] : Store)
    (Json.obj [("templates", Json.str "abc"), ("variables", Json.arr [])])
    (Json.str "abc") (Json.arr []) rfl rfl rfl rfl
    (Or.inl (fun _ h => Json.noConfusion h))

/-- Claim C3: importing the export of an unchanged store, with both writes
succeeding, restores both collections exactly — ids, string fields, the
optional description, and the timestamp instants all survive the
date-to-serialized-string-to-date round trip, provided the stored
timestamps are actual instants (the Invalid Date carries no instant to
preserve). -/
theorem importData_exportData_roundTrip (s : Store) (exportedAt : String)
    (ht : ∀ t ∈ getTemplates s, t.createdAt.isValid = true ∧ t.updatedAt.isValid = true)
    (hv : ∀ v ∈ getVariables s, v.createdAt.isValid = true ∧ v.updatedAt.isValid = true) :
    ∃ s2 : Store,
      importData (WriteEnv.mk true true) s (ImportInput.parsed (exportData s exportedAt)) =
        ImportResult.success s2 ∧
      getTemplates s2 = getTemplates s ∧ getVariables s2 = getVariables s := by
  refine ⟨storeSet (storeSet s templatesKey
      (Json.arr ((getTemplates s).map encodeTemplate)))
      variablesKey (Json.arr ((getVariables s).map encodeVariable)), ?_, ?_, ?_⟩
  · have hstep : importData (WriteEnv.mk true true) s
        (ImportInput.parsed (exportData s exportedAt)) =
        ImportResult.success
          (storeSet (storeSet s templatesKey
            (Json.arr ((((getTemplates s).map encodeTemplate).map decodeTemplate).map
              encodeTemplate)))
            variablesKey
            (Json.arr ((((getVariables s).map encodeVariable).map decodeVariable).map
              encodeVariable))) := rfl
    rw [hstep, map_decode_encode_templates _ ht, map_decode_encode_variables _ hv]
  · have hstep : getTemplates (storeSet (storeSet s templatesKey
        (Json.arr ((getTemplates s).map encodeTemplate)))
        variablesKey (Json.arr ((getVariables s).map encodeVariable))) =
        ((getTemplates s).map encodeTemplate).map decodeTemplate := rfl
    rw [hstep, map_decode_encode_templates _ ht]
  · have hstep : getVariables (storeSet (storeSet s templatesKey
        (Json.arr ((getTemplates s).map encodeTemplate)))
        variablesKey (Json.arr ((getVariables s).map encodeVariable))) =
        ((getVariables s).map encodeVariable).map decodeVariable := rfl
    rw [hstep, map_decode_encode_variables _ hv]

/-- Claim C3, witness: the round trip on a concrete store holding one
template and one variable with valid timestamps. -/
theorem importData_exportData_roundTrip_witness :
    ∃ s2 : Store,
      importData (WriteEnv.mk true true)
        ([(templatesKey, Json.arr [encodeTemplate
            (Template.mk "t1" "Hi" "Hello \x7b\x7bname\x7d\x7d"
              (JsDate.valid 1700000000000) (JsDate.valid 1700000000001))]),
          (variablesKey, Json.arr [encodeVariable
            (Variable.mk "v1" "name" "John" (some "who")
              (JsDate.valid 5) (JsDate.valid (-3)))])] : Store)
        (ImportInput.parsed (exportData
          ([(templatesKey, Json.arr [encodeTemplate
              (Template.mk "t1" "Hi" "Hello \x7b\x7bname\x7d\x7d"
                (JsDate.valid 1700000000000) (JsDate.valid 1700000000001))]),
            (variablesKey, Json.arr [encodeVariable
              (Variable.mk "v1" "name" "John" (some "who")
                (JsDate.valid 5) (JsDate.valid (-3)))])] : Store) "now")) =
        ImportResult.success s2 ∧
      getTemplates s2 = getTemplates
        ([(templatesKey, Json.arr [encodeTemplate
            (Template.mk "t1" "Hi" "Hello \x7b\x7bname\x7d\x7d"
              (JsDate.valid 1700000000000) (JsDate.valid 1700000000001))]),
          (variablesKey, Json.arr [encodeVariable
            (Variable.mk "v1" "name" "John" (some "who")
              (JsDate.valid 5) (JsDate.valid (-3)))])] : Store) ∧
      getVariables s2 = getVariables
        ([(templatesKey, Json.arr [encodeTemplate
            (Template.mk "t1" "Hi" "Hello \x7b\x7bname\x7d\x7d"
              (JsDate.valid 1700000000000) (JsDate.valid 1700000000001))]),
          (variablesKey, Json.arr [encodeVariable
            (Variable.mk "v1" "name" "John" (some "who")
              (JsDate.valid 5) (JsDate.valid (-3)))])] : Store) :=
  importData_exportData_roundTrip _ "now" (by decide) (by decide)
